import Mathlib

/-!
Verification of the capscr plugin subsystem: a shallow embedding of the
manifest validation, the plugin manager (discovery, duplicate handling and
event dispatch), the WASM sandbox (fuel metering, image exchange, pixel host
imports) and the zip install path, together with theorems settling the
specified properties.

Sources embedded: src/plugin/manifest.rs, src/plugin/mod.rs,
src/plugin/loader.rs, src/plugin/wasm_runtime.rs.  External crates
(wasmtime, semver, zip, image) are modelled at their documented interfaces
where the repository code calls into them.
-/

namespace Capscr

/-! ## Constants from src/plugin/wasm_runtime.rs -/

def MAX_WASM_MODULE_BYTES : Nat := 8 * 1024 * 1024

def MAX_PLUGIN_IMAGE_BYTES : Nat := 64 * 1024 * 1024

def WASM_EVENT_FUEL : Nat := 15000000

def WASM_LIFECYCLE_FUEL : Nat := 2000000

/-- Modulus of u32 arithmetic. -/
def U32_MOD : Nat := 4294967296

/-- Modulus of usize (64-bit) arithmetic. -/
def USIZE_MOD : Nat := 18446744073709551616

/-! ## Image and event data model (src/plugin/mod.rs) -/

/-- An RGBA image as the image crate stores it: dimensions plus the raw byte
buffer (bytes are Nat values below 256 in every state the code builds). -/
structure RgbaImage where
  width : Nat
  height : Nat
  data : List Nat
deriving DecidableEq

/-- Modelled from the image crate: ImageBuffer from_raw yields an image
exactly when the buffer length matches width * height * 4. -/
def RgbaImage.from_raw (w h : Nat) (data : List Nat) : Option RgbaImage :=
  if data.length = w * h * 4 then some ⟨w, h, data⟩ else none

inductive CaptureType
  | FullScreen
  | Window
  | Region
  | Gif
deriving DecidableEq

/-- PluginEvent from src/plugin/mod.rs; paths and urls modelled as strings. -/
inductive PluginEvent
  | PreCapture (mode : CaptureType)
  | PostCapture (image : RgbaImage) (mode : CaptureType)
  | PreSave (image : RgbaImage) (path : String)
  | PostSave (path : String)
  | PreUpload (image : RgbaImage)
  | PostUpload (url : String)
deriving DecidableEq

inductive PluginResponse
  | Continue
  | ModifiedImage (image : RgbaImage)
  | Cancel
deriving DecidableEq

/-! ## The WASM sandbox state (struct WasmState in src/plugin/wasm_runtime.rs,
omitting the StoreLimits field, which only caps module growth) -/

structure WasmState where
  image_data : Option (List Nat)
  image_width : Nat
  image_height : Nat
  modified : Bool
deriving DecidableEq

/-- A wasmtime store: the plugin-visible state plus the store-level fuel
counter that the runtime decrements as the module executes. -/
structure Store where
  data : WasmState
  fuel : Nat
deriving DecidableEq

/-- The linear byte index ((y * width + x) * 4) as usize computed by the
get_pixel and set_pixel host imports; the inner arithmetic is u32 and wraps. -/
def pixelIdx (w x y : Nat) : Nat :=
  (y * w + x) % U32_MOD * 4 % U32_MOD

/-- The env.get_pixel host import: packed ARGB (a shifted 24, r 16, g 8, b),
or 0 when no image is set or the index is out of bounds. -/
def get_pixel (s : WasmState) (x y : Nat) : Nat :=
  match s.image_data with
  | some data =>
      let idx := pixelIdx s.image_width x y
      if idx + 3 < data.length then
        let r := data.getD idx 0
        let g := data.getD (idx + 1) 0
        let b := data.getD (idx + 2) 0
        let a := data.getD (idx + 3) 0
        (a <<< 24) ||| (r <<< 16) ||| (g <<< 8) ||| b
      else 0
  | none => 0

/-- The env.set_pixel host import: unpack the ARGB value into the four bytes
at the computed index and raise the modified flag; out-of-bounds writes and
writes with no image set are ignored. -/
def set_pixel (s : WasmState) (x y rgba : Nat) : WasmState :=
  match s.image_data with
  | some data =>
      let idx := pixelIdx s.image_width x y
      if idx + 3 < data.length then
        { s with
          image_data := some
            ((((data.set idx ((rgba >>> 16) &&& 255)).set
                (idx + 1) ((rgba >>> 8) &&& 255)).set
                (idx + 2) (rgba &&& 255)).set
                (idx + 3) ((rgba >>> 24) &&& 255))
          modified := true }
      else s
  | none => s

/-! ## Untrusted module execution, modelled from the wasmtime interface -/

/-- The host imports a module may invoke (the env namespace linked in
WasmPlugin load). -/
inductive HostOp
  | getImageWidth
  | getImageHeight
  | getPixel (x y : Nat)
  | setPixel (x y rgba : Nat)
  | logMessage

/-- One step of a module computation over private module state σ: invoke a
host import and continue with its result, take a pure step, return an i32, or
trap. -/
inductive StepAct (σ : Type)
  | host (op : HostOp) (k : Nat → σ)
  | next (m : σ)
  | ret (v : Int)
  | trap

/-- Semantics of a host import call against the sandbox state: setPixel is
the only mutating import; logMessage is a stub. -/
def hostResult (s : WasmState) : HostOp → WasmState × Nat
  | .getImageWidth => (s, s.image_width)
  | .getImageHeight => (s, s.image_height)
  | .getPixel x y => (s, get_pixel s x y)
  | .setPixel x y rgba => (set_pixel s x y rgba, 0)
  | .logMessage => (s, 0)

/-- The host view of a linked module instance: for each export, whether
Instance get_func finds it, whether Func typed accepts its signature, and its
entry state; step is the module execution relation. -/
structure WasmInstance (σ : Type) where
  onEventEntry : Option (Int → σ)
  onEventSig : Bool
  onLoadEntry : Option σ
  onLoadSig : Bool
  onUnloadEntry : Option σ
  onUnloadSig : Bool
  step : σ → StepAct σ

/-- Fuel-metered execution, modelled from wasmtime: each executed step
consumes one fuel unit and the runtime raises a fuel-exhaustion trap at zero,
so execution is bounded by the budget and not by wall-clock time.  Returns
the outcome (error for any trap, fuel exhaustion included), the final sandbox
state and the fuel left. -/
def runModule {σ : Type} (step : σ → StepAct σ) :
    Nat → σ → WasmState → Except Unit Int × WasmState × Nat
  | 0, _, s => (.error (), s, 0)
  | fuel + 1, m, s =>
    match step m with
    | .ret v => (.ok v, s, fuel)
    | .trap => (.error (), s, fuel)
    | .next m2 => runModule step fuel m2 s
    | .host op k =>
        let r := hostResult s op
        runModule step fuel (k r.2) r.1

/-- WasmPlugin call_event: reset fuel to the per-event budget (set_fuel
cannot fail, the engine enables fuel metering), look up the on_event export,
type it as i32 to i32, run it, and degrade every failure to 0. -/
def WasmPlugin.call_event {σ : Type} (inst : WasmInstance σ) (st : Store)
    (event_type : Int) : Int × Store :=
  let st1 : Store := { st with fuel := WASM_EVENT_FUEL }
  match inst.onEventEntry with
  | none => (0, st1)
  | some entry =>
      if inst.onEventSig then
        match runModule inst.step st1.fuel (entry event_type) st1.data with
        | (.ok v, d, f) => (v, ⟨d, f⟩)
        | (.error _, d, f) => (0, ⟨d, f⟩)
      else (0, st1)

/-- usize checked_mul. -/
def checkedMul64 (a b : Nat) : Option Nat :=
  if a * b < USIZE_MOD then some (a * b) else none

/-- WasmPlugin set_image: copy the raw bytes into sandbox storage only when
the length is exactly width * height * 4 (computed with checked multiplies)
and within the global cap; otherwise clear the sandbox image entirely. -/
def WasmPlugin.set_image (s : WasmState) (image : RgbaImage) : WasmState :=
  let raw := image.data
  let expected_len :=
    (checkedMul64 image.width image.height).bind fun pixels => checkedMul64 pixels 4
  if expected_len ≠ some raw.length ∨ raw.length > MAX_PLUGIN_IMAGE_BYTES then
    { image_data := none, image_width := 0, image_height := 0, modified := false }
  else
    { image_data := some raw, image_width := image.width,
      image_height := image.height, modified := false }

/-- WasmPlugin get_modified_image: rebuild an owned image from the sandbox
buffer only when a set_pixel write actually occurred. -/
def WasmPlugin.get_modified_image (s : WasmState) : Option RgbaImage :=
  if s.modified then
    match s.image_data with
    | some data => RgbaImage.from_raw s.image_width s.image_height data
    | none => none
  else none

/-- The i32 event tag WasmPlugin on_event passes to the module. -/
def eventType : PluginEvent → Int
  | .PreCapture _ => 1
  | .PostCapture _ _ => 2
  | .PreSave _ _ => 3
  | .PostSave _ => 4
  | .PreUpload _ => 5
  | .PostUpload _ => 6

/-- The set_image side effect WasmPlugin on_event performs while computing
the event tag: only the image-carrying variants (PostCapture, PreSave,
PreUpload) copy their image into the sandbox. -/
def preEventState (s : WasmState) : PluginEvent → WasmState
  | .PostCapture image _ => WasmPlugin.set_image s image
  | .PreSave image _ => WasmPlugin.set_image s image
  | .PreUpload image => WasmPlugin.set_image s image
  | .PreCapture _ => s
  | .PostSave _ => s
  | .PostUpload _ => s

/-- WasmPlugin on_event: perform the set_image side effect, call the module,
and map the result (1 to Cancel, 2 to ModifiedImage when one is available,
anything else to Continue). -/
def WasmPlugin.on_event {σ : Type} (inst : WasmInstance σ) (st : Store)
    (event : PluginEvent) : PluginResponse × Store :=
  let st1 : Store := { st with data := preEventState st.data event }
  let rs := WasmPlugin.call_event inst st1 (eventType event)
  if rs.1 = 1 then (.Cancel, rs.2)
  else if rs.1 = 2 then
    match WasmPlugin.get_modified_image rs.2.data with
    | some img => (.ModifiedImage img, rs.2)
    | none => (.Continue, rs.2)
  else (.Continue, rs.2)

/-- WasmPlugin on_load: reset fuel to the lifecycle budget, then run the
optional on_load export, ignoring its outcome. -/
def WasmPlugin.on_load {σ : Type} (inst : WasmInstance σ) (st : Store) : Store :=
  let st1 : Store := { st with fuel := WASM_LIFECYCLE_FUEL }
  match inst.onLoadEntry with
  | none => st1
  | some entry =>
      if inst.onLoadSig then
        let r := runModule inst.step st1.fuel entry st1.data
        ⟨r.2.1, r.2.2⟩
      else st1

/-- WasmPlugin on_unload: reset fuel to the lifecycle budget, then run the
optional on_unload export, ignoring its outcome. -/
def WasmPlugin.on_unload {σ : Type} (inst : WasmInstance σ) (st : Store) : Store :=
  let st1 : Store := { st with fuel := WASM_LIFECYCLE_FUEL }
  match inst.onUnloadEntry with
  | none => st1
  | some entry =>
      if inst.onUnloadSig then
        let r := runModule inst.step st1.fuel entry st1.data
        ⟨r.2.1, r.2.2⟩
      else st1

/-- The store exactly as WasmPlugin load leaves it at the end of
construction: fresh image state, and fuel set to WASM_EVENT_FUEL (the
set_fuel call on line 68 of wasm_runtime.rs, before instantiation). -/
def WasmPlugin.loadStore : Store :=
  { data := { image_data := none, image_width := 0, image_height := 0, modified := false },
    fuel := WASM_EVENT_FUEL }

/-! ## The plugin manager (src/plugin/mod.rs)

Filesystem work (reading a manifest from a directory, resolving and loading
the library) is done by PluginLoader and is abstracted as oracles; the
manager logic below is a direct transcription.  A loaded plugin is its
manifest id plus its on_event behavior: within one dispatch every plugin is
invoked at most once, so its response to the dispatched event is a function
of the event. -/

structure LoadedPlugin where
  id : String
  onEvent : PluginEvent → PluginResponse

structure DiscoveredPlugin where
  id : String
  directory : String
deriving DecidableEq

structure PluginManager where
  plugins : List LoadedPlugin
  discovered : List DiscoveredPlugin
  enabled : Bool
  lazy_loading : Bool

/-- Oracle for PluginLoader load_from_directory: manifest reading,
validation, compatibility check, library resolution and handle construction
for a given directory. -/
abbrev LoadOracle := String → Except String LoadedPlugin

/-- Oracle for the checks PluginManager discover_from_directory performs
before its duplicate check (manifest from directory, validate, is_compatible,
library file exists); yields the manifest plugin id. -/
abbrev DiscoverOracle := String → Except String String

/-- PluginManager discover_from_directory: run the manifest checks, fail on a
duplicate id against the union of loaded and discovered, else queue the
candidate. -/
def PluginManager.discover_from_directory (check : DiscoverOracle)
    (m : PluginManager) (dir : String) : Except String PluginManager :=
  match check dir with
  | .error e => .error e
  | .ok plugin_id =>
      if m.plugins.any (fun loaded => loaded.id == plugin_id)
          || m.discovered.any (fun pending => pending.id == plugin_id) then
        .error ("Plugin with id '" ++ plugin_id ++ "' is already loaded")
      else
        .ok { m with discovered := m.discovered ++ [⟨plugin_id, dir⟩] }

/-- PluginManager load_from_directory: build the plugin via the loader, fail
on a duplicate id against the loaded set only, call on_load on the handle
(which touches no manager state), drop any pending entry with the same id and
append to the loaded set. -/
def PluginManager.load_from_directory (loader : LoadOracle)
    (m : PluginManager) (dir : String) : Except String PluginManager :=
  match loader dir with
  | .error e => .error e
  | .ok loaded =>
      if m.plugins.any (fun existing => existing.id == loaded.id) then
        .error ("Plugin with id '" ++ loaded.id ++ "' is already loaded")
      else
        .ok { m with
          discovered := m.discovered.filter (fun pending => pending.id != loaded.id),
          plugins := m.plugins ++ [loaded] }

/-- PluginManager load_pending: take the pending set, load each entry unless
its id is already loaded, and collect (not raise) per-plugin errors. -/
def PluginManager.load_pending (loader : LoadOracle) (m : PluginManager) :
    PluginManager × List String :=
  let pending := m.discovered
  let m0 : PluginManager := { m with discovered := [] }
  pending.foldl
    (fun acc d =>
      if acc.1.plugins.any (fun p => p.id == d.id) then acc
      else
        match PluginManager.load_from_directory loader acc.1 d.directory with
        | .ok m2 => (m2, acc.2)
        | .error e => (acc.1, acc.2 ++ [d.directory ++ ": " ++ e]))
    (m0, [])

/-- The dispatch loop over the loaded plugins: each receives the same event;
Cancel returns immediately, ModifiedImage overwrites the accumulator, and at
the end the accumulated image (if any) wins, else Continue. -/
def runPlugins : List LoadedPlugin → PluginEvent → Option RgbaImage → PluginResponse
  | [], _, none => .Continue
  | [], _, some img => .ModifiedImage img
  | p :: rest, event, current =>
    match p.onEvent event with
    | .Cancel => .Cancel
    | .ModifiedImage img => runPlugins rest event (some img)
    | .Continue => runPlugins rest event current

/-- PluginManager dispatch: Continue when disabled; in lazy mode promote all
pending plugins first (collecting errors as warnings); then run the loop. -/
def PluginManager.dispatch (loader : LoadOracle) (m : PluginManager)
    (event : PluginEvent) : PluginResponse × PluginManager :=
  if !m.enabled then (.Continue, m)
  else
    let m1 := if m.lazy_loading then (PluginManager.load_pending loader m).1 else m
    (runPlugins m1.plugins event none, m1)

/-- The same fold expressed over the list of responses; used to state that
dispatch depends on the plugins only through their responses to the one
dispatched event value. -/
def foldResponses : List PluginResponse → Option RgbaImage → PluginResponse
  | [], none => .Continue
  | [], some img => .ModifiedImage img
  | r :: rest, current =>
    match r with
    | .Cancel => .Cancel
    | .ModifiedImage img => foldResponses rest (some img)
    | .Continue => foldResponses rest current

/-- Spec-side reading: the image of the last response that is a
ModifiedImage. -/
def lastModifiedImage (rs : List PluginResponse) : Option RgbaImage :=
  rs.reverse.findSome? fun r =>
    match r with
    | .ModifiedImage img => some img
    | _ => none

/-! ## The manifest (src/plugin/manifest.rs) -/

structure PluginInfo where
  id : String
  name : String
  version : String
  author : String
  description : String
  license : Option String
  website : Option String
  repository : Option String
deriving DecidableEq

structure PluginCompatibility where
  capscr : String
  platforms : List String
deriving DecidableEq

structure PluginLibrary where
  windows : Option String
  linux : Option String
  macos : Option String
deriving DecidableEq

structure PluginManifest where
  plugin : PluginInfo
  compatibility : PluginCompatibility
  library : PluginLibrary
deriving DecidableEq

/-- The per-character id constraint: is_ascii_lowercase, hyphen, or
is_ascii_digit. -/
def idCharOk (c : Char) : Bool :=
  (97 ≤ c.toNat && c.toNat ≤ 122) || c == '-' || (48 ≤ c.toNat && c.toNat ≤ 57)

/-- PluginManifest validate, transcribed check for check in source order.
The external semver crate is abstracted by two oracles: pv s is true iff
semver Version parse of s succeeds, pr s iff semver VersionReq parse of s
succeeds.  Rust String len() is the UTF-8 byte length, hence utf8ByteSize;
Rust chars() iterates unicode scalar values, hence the data list. -/
def PluginManifest.validate (pv pr : String → Bool) (m : PluginManifest) :
    Except String Unit :=
  if m.plugin.id = "" then
    .error "Plugin ID cannot be empty"
  else if !m.plugin.id.data.all idCharOk then
    .error "Plugin ID must be lowercase alphanumeric with hyphens only"
  else if m.plugin.id.utf8ByteSize > 64 then
    .error "Plugin ID cannot exceed 64 characters"
  else if m.plugin.name = "" then
    .error "Plugin name cannot be empty"
  else if m.plugin.name.utf8ByteSize > 128 then
    .error "Plugin name cannot exceed 128 characters"
  else if m.plugin.version = "" then
    .error "Plugin version cannot be empty"
  else if !pv m.plugin.version then
    .error "Plugin version must be valid semver (e.g., 1.0.0)"
  else if m.plugin.author = "" then
    .error "Plugin author cannot be empty"
  else if m.plugin.author.utf8ByteSize > 128 then
    .error "Plugin author cannot exceed 128 characters"
  else if m.plugin.description.utf8ByteSize > 512 then
    .error "Plugin description cannot exceed 512 characters"
  else if !pr m.compatibility.capscr then
    .error "Compatibility version must be valid semver requirement"
  else if m.compatibility.platforms = [] then
    .error "At least one platform must be specified"
  else
    match m.compatibility.platforms.find?
        (fun platform => ! (["windows", "linux", "macos"].contains platform)) with
    | some platform => .error ("Invalid platform: " ++ platform)
    | none => .ok ()

/-! ## Zip extraction (src/plugin/loader.rs) -/

inductive PathComponent
  | parentDir
  | curDir
  | normal (s : String)
deriving DecidableEq

/-- A zip entry file name parsed as a path: whether it starts with a root or
prefix component, plus the remaining components. -/
structure ZipEntryName where
  absolute : Bool
  components : List PathComponent
deriving DecidableEq

/-- The traversal-depth check of the zip crate enclosed_name: normal
components push, parent-dir components pop via checked_sub (failing when the
depth would go negative), cur-dir components are neutral. -/
def entryDepthOk : Nat → List PathComponent → Bool
  | _, [] => true
  | depth, .normal _ :: rest => entryDepthOk (depth + 1) rest
  | depth, .curDir :: rest => entryDepthOk depth rest
  | 0, .parentDir :: _ => false
  | depth + 1, .parentDir :: rest => entryDepthOk depth rest

/-- Modelled from the zip crate: enclosed_name rejects absolute entry names
and names whose parent-dir components could escape upward, and otherwise
returns the (relative) path unchanged. -/
def enclosedName (e : ZipEntryName) : Option (List PathComponent) :=
  if e.absolute then none
  else if entryDepthOk 0 e.components then some e.components
  else none

/-- Filesystem resolution of path components against a directory given as its
component stack: a normal component descends, parent-dir pops (staying put at
the root), cur-dir is a no-op. -/
def resolveFrom (stack : List String) : List PathComponent → List String
  | [] => stack
  | .normal s :: rest => resolveFrom (stack ++ [s]) rest
  | .curDir :: rest => resolveFrom stack rest
  | .parentDir :: rest => resolveFrom stack.dropLast rest

/-- The per-entry write target of install_from_zip: entries rejected by
enclosed_name are skipped with continue, accepted ones are written to
plugin_dir join path (Rust Path join would replace plugin_dir for an
absolute path, but absolute entries are already rejected). -/
def installEntryTarget (plugin_dir : List String) (e : ZipEntryName) :
    Option (List String) :=
  (enclosedName e).map (resolveFrom plugin_dir)

/-! ## Helper lemmas for the sandbox call path -/

/-- Running a module whose next step returns, under positive fuel. -/
theorem runModule_ret {σ : Type} (stp : σ → StepAct σ) (m : σ) (s : WasmState)
    (v : Int) (fuel : Nat) (h0 : 0 < fuel) (hs : stp m = .ret v) :
    runModule stp fuel m s = (.ok v, s, fuel - 1) := by
  cases fuel with
  | zero => omega
  | succ n => simp [runModule, hs]

theorem WASM_EVENT_FUEL_pos : 0 < WASM_EVENT_FUEL := by
  norm_num [WASM_EVENT_FUEL]

theorem lifecycle_lt_event_fuel : WASM_LIFECYCLE_FUEL < WASM_EVENT_FUEL := by
  norm_num [WASM_LIFECYCLE_FUEL, WASM_EVENT_FUEL]

/-- Characterization of call_event when the on_event export is missing. -/
theorem call_event_no_export {σ : Type} (inst : WasmInstance σ) (st : Store)
    (et : Int) (h : inst.onEventEntry = none) :
    WasmPlugin.call_event inst st et = (0, { st with fuel := WASM_EVENT_FUEL }) := by
  unfold WasmPlugin.call_event
  generalize WASM_EVENT_FUEL = W
  rw [h]

/-- Characterization of call_event when the on_event export does not have the
i32 to i32 signature. -/
theorem call_event_bad_sig {σ : Type} (inst : WasmInstance σ) (st : Store)
    (et : Int) (entry : Int → σ) (he : inst.onEventEntry = some entry)
    (hsig : inst.onEventSig = false) :
    WasmPlugin.call_event inst st et = (0, { st with fuel := WASM_EVENT_FUEL }) := by
  unfold WasmPlugin.call_event
  generalize WASM_EVENT_FUEL = W
  rw [he]
  simp [hsig]

/-- Characterization of call_event when the export is present and well typed:
the module runs under exactly the per-event budget against the store state,
and a trap or fuel exhaustion degrades to result 0. -/
theorem call_event_run_ok {σ : Type} (inst : WasmInstance σ) (st : Store)
    (et : Int) (entry : Int → σ) (he : inst.onEventEntry = some entry)
    (hsig : inst.onEventSig = true) (v : Int) (d : WasmState) (f : Nat)
    (hr : runModule inst.step WASM_EVENT_FUEL (entry et) st.data = (.ok v, d, f)) :
    WasmPlugin.call_event inst st et = (v, ⟨d, f⟩) := by
  unfold WasmPlugin.call_event
  generalize hW : WASM_EVENT_FUEL = W at hr ⊢
  split
  · rename_i hnone
    rw [he] at hnone
    cases hnone
  · rename_i entry2 hsome
    rw [he] at hsome
    cases hsome
    rw [if_pos hsig]
    rw [show ({ data := st.data, fuel := W } : Store).fuel = W from rfl,
      show ({ data := st.data, fuel := W } : Store).data = st.data from rfl, hr]

/-- Characterization of call_event when the export is present and well typed
but its execution fails: a trap or fuel exhaustion degrades to result 0. -/
theorem call_event_run_err {σ : Type} (inst : WasmInstance σ) (st : Store)
    (et : Int) (entry : Int → σ) (he : inst.onEventEntry = some entry)
    (hsig : inst.onEventSig = true) (u : Unit) (d : WasmState) (f : Nat)
    (hr : runModule inst.step WASM_EVENT_FUEL (entry et) st.data = (.error u, d, f)) :
    WasmPlugin.call_event inst st et = (0, ⟨d, f⟩) := by
  unfold WasmPlugin.call_event
  generalize hW : WASM_EVENT_FUEL = W at hr ⊢
  split
  · rename_i hnone
    rw [he] at hnone
    cases hnone
  · rename_i entry2 hsome
    rw [he] at hsome
    cases hsome
    rw [if_pos hsig]
    rw [show ({ data := st.data, fuel := W } : Store).fuel = W from rfl,
      show ({ data := st.data, fuel := W } : Store).data = st.data from rfl, hr]

/-- Characterization of on_event through the call_event outcome. -/
theorem on_event_of_call {σ : Type} (inst : WasmInstance σ) (st : Store)
    (event : PluginEvent) (out : Int × Store)
    (hc : WasmPlugin.call_event inst
        { st with data := preEventState st.data event } (eventType event) = out) :
    WasmPlugin.on_event inst st event
      = if out.1 = 1 then (.Cancel, out.2)
        else if out.1 = 2 then
          match WasmPlugin.get_modified_image out.2.data with
          | some img => (.ModifiedImage img, out.2)
          | none => (.Continue, out.2)
        else (.Continue, out.2) := by
  unfold WasmPlugin.on_event
  simp only [hc]

/-- The result mapping of call_event on a module outcome: a returned value
passes through, any failed execution becomes 0. -/
def eventResult : Except Unit Int → Int
  | .ok v => v
  | .error _ => 0

/-- A module that only ever takes pure steps: the busy loop. -/
def busyLoopInstance : WasmInstance Unit :=
  { onEventEntry := some fun _ => ()
    onEventSig := true
    onLoadEntry := none
    onLoadSig := false
    onUnloadEntry := none
    onUnloadSig := false
    step := fun _ => .next () }

theorem busyLoop_runModule (fuel : Nat) (m : Unit) (s : WasmState) :
    runModule busyLoopInstance.step fuel m s = (.error (), s, 0) := by
  induction fuel with
  | zero => rfl
  | succ n ih => simpa [runModule, busyLoopInstance] using ih

/-- call_event depends only on the sandbox data of the store, never on the
fuel left in it, because it resets the fuel first. -/
theorem call_event_data_only {σ : Type} (inst : WasmInstance σ)
    (st st' : Store) (et : Int) (hd : st.data = st'.data) :
    WasmPlugin.call_event inst st et = WasmPlugin.call_event inst st' et := by
  unfold WasmPlugin.call_event
  generalize WASM_EVENT_FUEL = W
  rw [hd]

/-! ## C1 -/

/-- C1: for every loaded WASM plugin and every event, if the on_event export
is missing, has the wrong signature, or its execution fails (trap or fuel
exhaustion), WasmPlugin on_event returns Continue; the model is total, so no
panic, trap or resource exhaustion escapes the sandbox boundary. -/
theorem wasm_on_event_absorbs_failure {σ : Type} (inst : WasmInstance σ)
    (st : Store) (event : PluginEvent)
    (h : inst.onEventEntry = none ∨ inst.onEventSig = false ∨
      ∀ entry, inst.onEventEntry = some entry →
        (runModule inst.step WASM_EVENT_FUEL (entry (eventType event))
          (preEventState st.data event)).1 = .error ()) :
    (WasmPlugin.on_event inst st event).1 = PluginResponse.Continue := by
  rcases h with h | h | h
  · rw [on_event_of_call inst st event _ (call_event_no_export inst _ _ h)]
    rfl
  · cases he : inst.onEventEntry with
    | none =>
        rw [on_event_of_call inst st event _ (call_event_no_export inst _ _ he)]
        rfl
    | some entry =>
        rw [on_event_of_call inst st event _ (call_event_bad_sig inst _ _ entry he h)]
        rfl
  · cases he : inst.onEventEntry with
    | none =>
        rw [on_event_of_call inst st event _ (call_event_no_export inst _ _ he)]
        rfl
    | some entry =>
        cases hsig : inst.onEventSig with
        | false =>
            rw [on_event_of_call inst st event _
              (call_event_bad_sig inst _ _ entry he hsig)]
            rfl
        | true =>
            have hrun := h entry he
            rcases hr : runModule inst.step WASM_EVENT_FUEL (entry (eventType event))
                (preEventState st.data event) with ⟨r, d, f⟩
            rw [hr] at hrun
            cases r with
            | ok v => exact absurd hrun (by simp)
            | error u =>
                rw [on_event_of_call inst st event _
                  (call_event_run_err inst _ _ entry he hsig u d f hr)]
                rfl

/-- Witness for C1: a module with no on_event export yields Continue. -/
theorem wasm_on_event_absorbs_failure_witness :
    (WasmPlugin.on_event (σ := Unit)
        ⟨none, true, none, true, none, true, fun _ => .trap⟩
        WasmPlugin.loadStore (.PreCapture .FullScreen)).1
      = PluginResponse.Continue :=
  wasm_on_event_absorbs_failure _ _ _ (Or.inl rfl)

/-! ## C5 -/

/-- C5: the fuel left over from earlier calls is irrelevant because
call_event resets fuel to the per-event budget immediately before the
invocation, and a present, well-typed on_event export runs under exactly
WASM_EVENT_FUEL; a busy-looping module halts with its fuel exhausted
(whatever the budget, with no wall-clock involvement) and the event call
degrades to Continue. -/
theorem wasm_event_fuel_budget :
    (∀ (σ : Type) (inst : WasmInstance σ) (st : Store) (f : Nat) (et : Int),
      WasmPlugin.call_event inst { st with fuel := f } et
        = WasmPlugin.call_event inst st et)
    ∧ (∀ (σ : Type) (entry : Int → σ) (ol : Option σ) (ols : Bool)
        (ou : Option σ) (ous : Bool) (stp : σ → StepAct σ) (st : Store)
        (et : Int) (r : Except Unit Int) (d : WasmState) (fl : Nat),
        runModule stp WASM_EVENT_FUEL (entry et) st.data = (r, d, fl) →
        WasmPlugin.call_event ⟨some entry, true, ol, ols, ou, ous, stp⟩ st et
          = (eventResult r, ⟨d, fl⟩))
    ∧ (∀ (fuel : Nat) (m : Unit) (s : WasmState),
        runModule busyLoopInstance.step fuel m s = (.error (), s, 0))
    ∧ (∀ (st : Store) (event : PluginEvent),
        (WasmPlugin.on_event busyLoopInstance st event).1
          = PluginResponse.Continue) := by
  refine ⟨fun σ inst st f et => call_event_data_only inst _ _ et rfl,
    fun σ entry ol ols ou ous stp st et r d fl hr => ?_,
    busyLoop_runModule, fun st event => ?_⟩
  · cases r with
    | ok v => exact call_event_run_ok _ st et entry rfl rfl v d fl hr
    | error u => exact call_event_run_err _ st et entry rfl rfl u d fl hr
  · rw [on_event_of_call busyLoopInstance st event _
      (call_event_run_err busyLoopInstance _ _ (fun _ => ()) rfl rfl ()
        (preEventState st.data event) 0
        (busyLoop_runModule WASM_EVENT_FUEL () (preEventState st.data event)))]
    rfl

/-! ## C7 -/

/-- C7 counterexample: WasmPlugin load leaves the store fuel at the
per-event budget WASM_EVENT_FUEL itself (line 68 of wasm_runtime.rs), so
construction does not set a startup fuel budget smaller than the per-event
budget. -/
theorem wasm_startup_fuel_counterexample :
    WasmPlugin.loadStore.fuel = WASM_EVENT_FUEL
      ∧ ¬ WasmPlugin.loadStore.fuel < WASM_EVENT_FUEL :=
  ⟨rfl, Nat.lt_irrefl _⟩

/-- C7 amended: construction sets the initial fuel to the per-event budget
(not to a smaller startup budget); it is the lifecycle calls themselves that
reset fuel to the smaller WASM_LIFECYCLE_FUEL budget immediately before
invoking the optional on_load and on_unload exports, so those exports do run
under the small fixed budget whatever fuel was left before. -/
theorem wasm_lifecycle_fuel_amended :
    WASM_LIFECYCLE_FUEL < WASM_EVENT_FUEL
    ∧ WasmPlugin.loadStore.fuel = WASM_EVENT_FUEL
    ∧ (∀ (σ : Type) (inst : WasmInstance σ) (st : Store) (f : Nat),
        WasmPlugin.on_load inst { st with fuel := f } = WasmPlugin.on_load inst st
        ∧ WasmPlugin.on_unload inst { st with fuel := f }
            = WasmPlugin.on_unload inst st)
    ∧ (∀ (σ : Type) (entry : σ) (oe : Option (Int → σ)) (oes : Bool)
        (ou : Option σ) (ous : Bool) (stp : σ → StepAct σ) (st : Store),
        WasmPlugin.on_load ⟨oe, oes, some entry, true, ou, ous, stp⟩ st
          = ⟨(runModule stp WASM_LIFECYCLE_FUEL entry st.data).2.1,
             (runModule stp WASM_LIFECYCLE_FUEL entry st.data).2.2⟩)
    ∧ (∀ (σ : Type) (entry : σ) (oe : Option (Int → σ)) (oes : Bool)
        (ol : Option σ) (ols : Bool) (stp : σ → StepAct σ) (st : Store),
        WasmPlugin.on_unload ⟨oe, oes, ol, ols, some entry, true, stp⟩ st
          = ⟨(runModule stp WASM_LIFECYCLE_FUEL entry st.data).2.1,
             (runModule stp WASM_LIFECYCLE_FUEL entry st.data).2.2⟩) := by
  refine ⟨lifecycle_lt_event_fuel, rfl, fun σ inst st f => ⟨?_, ?_⟩,
    fun σ entry oe oes ou ous stp st => ?_,
    fun σ entry oe oes ol ols stp st => ?_⟩
  · unfold WasmPlugin.on_load
    generalize WASM_LIFECYCLE_FUEL = W
    rfl
  · unfold WasmPlugin.on_unload
    generalize WASM_LIFECYCLE_FUEL = W
    rfl
  · unfold WasmPlugin.on_load
    generalize WASM_LIFECYCLE_FUEL = W
    rfl
  · unfold WasmPlugin.on_unload
    generalize WASM_LIFECYCLE_FUEL = W
    rfl

/-! ## C10 -/

/-- C10: on_event performs set_image exactly for the image-carrying event
variants (PostCapture, PreSave, PreUpload) and leaves the sandbox image
state untouched for PreCapture, PostSave and PostUpload; hence a module that
returns 2 on an image-less event while the sandbox still holds a modified
image from an earlier event produces a ModifiedImage rebuilt from that
earlier image. -/
theorem wasm_on_event_image_routing :
    (∀ (s : WasmState) (mode : CaptureType) (path url : String),
        preEventState s (.PreCapture mode) = s
        ∧ preEventState s (.PostSave path) = s
        ∧ preEventState s (.PostUpload url) = s)
    ∧ (∀ (s : WasmState) (image : RgbaImage) (mode : CaptureType) (path : String),
        preEventState s (.PostCapture image mode) = WasmPlugin.set_image s image
        ∧ preEventState s (.PreSave image path) = WasmPlugin.set_image s image
        ∧ preEventState s (.PreUpload image) = WasmPlugin.set_image s image)
    ∧ (∀ (σ : Type) (m0 : σ) (ol ou : Option σ) (ols ous : Bool)
        (w h : Nat) (data : List Nat) (fuel : Nat) (mode : CaptureType),
        data.length = w * h * 4 →
        (WasmPlugin.on_event
            ⟨some (fun _ => m0), true, ol, ols, ou, ous, fun _ => .ret 2⟩
            ⟨⟨some data, w, h, true⟩, fuel⟩ (.PreCapture mode)).1
          = PluginResponse.ModifiedImage ⟨w, h, data⟩) := by
  refine ⟨fun s mode path url => ⟨rfl, rfl, rfl⟩,
    fun s image mode path => ⟨rfl, rfl, rfl⟩,
    fun σ m0 ol ou ols ous w h data fuel mode hlen => ?_⟩
  rw [on_event_of_call _ _ _ _
    (call_event_run_ok _ _ _ (fun _ => m0) rfl rfl 2 ⟨some data, w, h, true⟩
      (WASM_EVENT_FUEL - 1)
      (runModule_ret _ _ _ _ _ WASM_EVENT_FUEL_pos rfl))]
  simp only [WasmPlugin.get_modified_image, RgbaImage.from_raw, hlen]
  rfl

/-- Witness for C10: a 1 by 1 image left from an earlier event is returned
as the modified image on a PreCapture event. -/
theorem wasm_on_event_image_routing_witness :
    (WasmPlugin.on_event (σ := Unit)
        ⟨some (fun _ => ()), true, none, false, none, false, fun _ => .ret 2⟩
        ⟨⟨some [1, 2, 3, 4], 1, 1, true⟩, 0⟩ (.PreCapture .FullScreen)).1
      = PluginResponse.ModifiedImage ⟨1, 1, [1, 2, 3, 4]⟩ :=
  wasm_on_event_image_routing.2.2 Unit () none none false false 1 1 [1, 2, 3, 4] 0
    .FullScreen (by decide)

/-- Witness for C5: a module that immediately returns 7 runs under the
per-event budget, and the busy loop yields Continue. -/
theorem wasm_event_fuel_budget_witness :
    WasmPlugin.call_event (σ := Unit)
        ⟨some (fun _ => ()), true, none, false, none, false, fun _ => .ret 7⟩
        ⟨⟨none, 0, 0, false⟩, 3⟩ 1
      = (eventResult (.ok 7), ⟨⟨none, 0, 0, false⟩, WASM_EVENT_FUEL - 1⟩)
    ∧ (WasmPlugin.on_event busyLoopInstance ⟨⟨none, 0, 0, false⟩, 3⟩
        (.PostSave "p")).1 = PluginResponse.Continue :=
  ⟨wasm_event_fuel_budget.2.1 Unit (fun _ => ()) none false none false
      (fun _ => .ret 7) ⟨⟨none, 0, 0, false⟩, 3⟩ 1 (.ok 7) ⟨none, 0, 0, false⟩
      (WASM_EVENT_FUEL - 1) (runModule_ret _ _ _ _ _ WASM_EVENT_FUEL_pos rfl),
    wasm_event_fuel_budget.2.2.2 ⟨⟨none, 0, 0, false⟩, 3⟩ (.PostSave "p")⟩

/-! ## C4 -/

/-- C4: set_image copies the bytes into sandbox storage exactly when the
length equals width * height * 4 and is within the global cap; any mismatch
leaves the sandbox with no image at all (data cleared, dimensions zero,
modified flag down) and every subsequent get_pixel returns 0; the model is a
total function, so no panic occurs. -/
theorem wasm_set_image_guard (s : WasmState) (image : RgbaImage) :
    (image.data.length = image.width * image.height * 4
        ∧ image.data.length ≤ MAX_PLUGIN_IMAGE_BYTES →
      WasmPlugin.set_image s image
        = ⟨some image.data, image.width, image.height, false⟩)
    ∧ (¬ (image.data.length = image.width * image.height * 4
          ∧ image.data.length ≤ MAX_PLUGIN_IMAGE_BYTES) →
      WasmPlugin.set_image s image = ⟨none, 0, 0, false⟩
        ∧ ∀ x y, get_pixel (WasmPlugin.set_image s image) x y = 0) := by
  have husize : MAX_PLUGIN_IMAGE_BYTES < USIZE_MOD := by
    norm_num [MAX_PLUGIN_IMAGE_BYTES, USIZE_MOD]
  constructor
  · rintro ⟨hlen, hcap⟩
    have hwh4 : image.width * image.height * 4 < USIZE_MOD := by
      rw [← hlen]; omega
    have hwh : image.width * image.height < USIZE_MOD := by
      have : image.width * image.height ≤ image.width * image.height * 4 :=
        Nat.le_mul_of_pos_right _ (by norm_num)
      omega
    unfold WasmPlugin.set_image
    rw [show checkedMul64 image.width image.height
        = some (image.width * image.height) from if_pos hwh]
    rw [show (some (image.width * image.height)).bind
          (fun pixels => checkedMul64 pixels 4)
        = checkedMul64 (image.width * image.height) 4 from rfl]
    rw [show checkedMul64 (image.width * image.height) 4
        = some (image.width * image.height * 4) from if_pos hwh4]
    rw [if_neg]
    push_neg
    exact ⟨by rw [hlen], hcap⟩
  · intro hbad
    have hcond : WasmPlugin.set_image s image = ⟨none, 0, 0, false⟩ := by
      unfold WasmPlugin.set_image
      rw [if_pos]
      by_cases hc : image.data.length = image.width * image.height * 4
      · right
        omega
      · left
        intro habs
        apply hc
        unfold checkedMul64 at habs
        split_ifs at habs with h1
        · simp only [Option.some_bind] at habs
          split_ifs at habs with h2
          exact (Option.some.inj habs).symm
        · exact absurd habs (by simp)
    refine ⟨hcond, fun x y => ?_⟩
    rw [hcond]
    rfl

/-- Witness for C4: a valid 1 by 1 image is copied; a short buffer clears
the sandbox and get_pixel then reads 0. -/
theorem wasm_set_image_guard_witness :
    WasmPlugin.set_image ⟨none, 0, 0, false⟩ ⟨1, 1, [1, 2, 3, 4]⟩
        = ⟨some [1, 2, 3, 4], 1, 1, false⟩
      ∧ get_pixel (WasmPlugin.set_image ⟨some [9], 3, 3, true⟩ ⟨1, 1, [1, 2, 3]⟩) 0 0 = 0 :=
  ⟨(wasm_set_image_guard ⟨none, 0, 0, false⟩ ⟨1, 1, [1, 2, 3, 4]⟩).1 (by decide),
    ((wasm_set_image_guard ⟨some [9], 3, 3, true⟩ ⟨1, 1, [1, 2, 3]⟩).2 (by decide)).2 0 0⟩

/-! ## C9 -/

/-- Repacking the four bytes of a 32-bit ARGB value reproduces the value. -/
theorem argb_repack (v : Nat) (hv : v < U32_MOD) :
    ((((v >>> 24) &&& 255) <<< 24) ||| (((v >>> 16) &&& 255) <<< 16)
        ||| (((v >>> 8) &&& 255) <<< 8)) ||| (v &&& 255) = v := by
  have h255 : (255 : Nat) = 2 ^ 8 - 1 := by norm_num
  rw [h255, Nat.and_pow_two_sub_one_eq_mod, Nat.and_pow_two_sub_one_eq_mod,
    Nat.and_pow_two_sub_one_eq_mod, Nat.and_pow_two_sub_one_eq_mod,
    Nat.shiftRight_eq_div_pow, Nat.shiftRight_eq_div_pow, Nat.shiftRight_eq_div_pow,
    Nat.shiftLeft_eq, Nat.shiftLeft_eq, Nat.shiftLeft_eq]
  have hA : v / 2 ^ 24 % 2 ^ 8 < 2 ^ 8 := Nat.mod_lt _ (by norm_num)
  have hR : v / 2 ^ 16 % 2 ^ 8 < 2 ^ 8 := Nat.mod_lt _ (by norm_num)
  have hG : v / 2 ^ 8 % 2 ^ 8 < 2 ^ 8 := Nat.mod_lt _ (by norm_num)
  have hB : v % 2 ^ 8 < 2 ^ 8 := Nat.mod_lt _ (by norm_num)
  rw [show v / 2 ^ 24 % 2 ^ 8 * 2 ^ 24 = 2 ^ 24 * (v / 2 ^ 24 % 2 ^ 8) by ring,
    show v / 2 ^ 16 % 2 ^ 8 * 2 ^ 16 = 2 ^ 16 * (v / 2 ^ 16 % 2 ^ 8) by ring,
    show v / 2 ^ 8 % 2 ^ 8 * 2 ^ 8 = 2 ^ 8 * (v / 2 ^ 8 % 2 ^ 8) by ring]
  rw [← Nat.mul_add_lt_is_or (b := 2 ^ 16 * (v / 2 ^ 16 % 2 ^ 8)) (by omega) _]
  rw [show 2 ^ 24 * (v / 2 ^ 24 % 2 ^ 8) + 2 ^ 16 * (v / 2 ^ 16 % 2 ^ 8)
      = 2 ^ 16 * (2 ^ 8 * (v / 2 ^ 24 % 2 ^ 8) + v / 2 ^ 16 % 2 ^ 8) by ring]
  rw [← Nat.mul_add_lt_is_or (b := 2 ^ 8 * (v / 2 ^ 8 % 2 ^ 8)) (by omega) _]
  rw [show 2 ^ 16 * (2 ^ 8 * (v / 2 ^ 24 % 2 ^ 8) + v / 2 ^ 16 % 2 ^ 8)
        + 2 ^ 8 * (v / 2 ^ 8 % 2 ^ 8)
      = 2 ^ 8 * (2 ^ 8 * (2 ^ 8 * (v / 2 ^ 24 % 2 ^ 8) + v / 2 ^ 16 % 2 ^ 8)
        + v / 2 ^ 8 % 2 ^ 8) by ring]
  rw [← Nat.mul_add_lt_is_or (b := v % 2 ^ 8) hB _]
  have hv32 : v < 2 ^ 32 := hv
  omega

/-- Unfolded form of set_pixel on a state holding an image. -/
theorem set_pixel_eq (data : List Nat) (w h' : Nat) (mo : Bool) (x y rgba : Nat) :
    set_pixel ⟨some data, w, h', mo⟩ x y rgba
      = if pixelIdx w x y + 3 < data.length then
          ⟨some ((((data.set (pixelIdx w x y) ((rgba >>> 16) &&& 255)).set
              (pixelIdx w x y + 1) ((rgba >>> 8) &&& 255)).set
              (pixelIdx w x y + 2) (rgba &&& 255)).set
              (pixelIdx w x y + 3) ((rgba >>> 24) &&& 255)), w, h', true⟩
        else ⟨some data, w, h', mo⟩ := rfl

/-- Unfolded form of get_pixel on a state holding an image. -/
theorem get_pixel_eq (data : List Nat) (w h' : Nat) (mo : Bool) (x y : Nat) :
    get_pixel ⟨some data, w, h', mo⟩ x y
      = if pixelIdx w x y + 3 < data.length then
          (data.getD (pixelIdx w x y + 3) 0 <<< 24)
            ||| (data.getD (pixelIdx w x y) 0 <<< 16)
            ||| (data.getD (pixelIdx w x y + 1) 0 <<< 8)
            ||| data.getD (pixelIdx w x y + 2) 0
        else 0 := rfl

/-- C9: for a sandbox holding an image, coordinates whose computed linear
index is in bounds, and any 32-bit value, set_pixel followed by get_pixel at
the same coordinates returns the value unchanged: the ARGB packing is
decomposed on write and repacked losslessly on read. -/
theorem wasm_pixel_roundtrip (s : WasmState) (data : List Nat) (x y v : Nat)
    (hdata : s.image_data = some data)
    (hidx : pixelIdx s.image_width x y + 3 < data.length)
    (hv : v < U32_MOD) :
    get_pixel (set_pixel s x y v) x y = v := by
  obtain ⟨sid, sw, sh, sm⟩ := s
  dsimp only at hdata hidx
  subst hdata
  rw [set_pixel_eq, if_pos hidx, get_pixel_eq]
  set idx := pixelIdx sw x y with hidxdef
  set data2 := (((data.set idx ((v >>> 16) &&& 255)).set
      (idx + 1) ((v >>> 8) &&& 255)).set
      (idx + 2) (v &&& 255)).set
      (idx + 3) ((v >>> 24) &&& 255) with hdata2
  have hlt : idx < data.length := by omega
  have hlen2 : data2.length = data.length := by
    simp [hdata2, List.length_set]
  have hread0 : data2.getD idx 0 = (v >>> 16) &&& 255 := by
    rw [hdata2]
    simp only [List.getD_eq_getElem?_getD]
    rw [List.getElem?_set_ne (by omega), List.getElem?_set_ne (by omega),
      List.getElem?_set_ne (by omega), List.getElem?_set_self hlt]
    rfl
  have hread1 : data2.getD (idx + 1) 0 = (v >>> 8) &&& 255 := by
    rw [hdata2]
    simp only [List.getD_eq_getElem?_getD]
    rw [List.getElem?_set_ne (by omega), List.getElem?_set_ne (by omega),
      List.getElem?_set_self (by simp only [List.length_set]; omega)]
    rfl
  have hread2 : data2.getD (idx + 2) 0 = v &&& 255 := by
    rw [hdata2]
    simp only [List.getD_eq_getElem?_getD]
    rw [List.getElem?_set_ne (by omega),
      List.getElem?_set_self (by simp only [List.length_set]; omega)]
    rfl
  have hread3 : data2.getD (idx + 3) 0 = (v >>> 24) &&& 255 := by
    rw [hdata2]
    simp only [List.getD_eq_getElem?_getD]
    rw [List.getElem?_set_self (by simp only [List.length_set]; omega)]
    rfl
  rw [if_pos (by rw [hlen2]; exact hidx)]
  rw [hread0, hread1, hread2, hread3]
  exact argb_repack v hv

/-- Witness for C9: writing 0x12345678 at pixel (1, 0) of a 2 by 1 image and
reading it back returns 0x12345678. -/
theorem wasm_pixel_roundtrip_witness :
    get_pixel (set_pixel ⟨some [0, 0, 0, 0, 0, 0, 0, 0], 2, 1, false⟩ 1 0 305419896) 1 0
      = 305419896 :=
  wasm_pixel_roundtrip ⟨some [0, 0, 0, 0, 0, 0, 0, 0], 2, 1, false⟩
    [0, 0, 0, 0, 0, 0, 0, 0] 1 0 305419896 rfl (by decide) (by decide)

/-! ## C6 -/

/-- Resolving components that pass the depth check starting from depth equal
to the stack height never pops past the base directory. -/
theorem resolveFrom_extends (base : List String) :
    ∀ (comps : List PathComponent) (stk : List String),
      entryDepthOk stk.length comps = true →
      ∃ suffix, resolveFrom (base ++ stk) comps = base ++ suffix := by
  intro comps
  induction comps with
  | nil => exact fun stk _ => ⟨stk, rfl⟩
  | cons c rest ih =>
      intro stk h
      cases c with
      | normal s =>
          have h2 : entryDepthOk (stk ++ [s]).length rest = true := by
            rw [List.length_append]
            simpa [entryDepthOk] using h
          rcases ih (stk ++ [s]) h2 with ⟨suffix, hs⟩
          refine ⟨suffix, ?_⟩
          rw [show resolveFrom (base ++ stk) (PathComponent.normal s :: rest)
              = resolveFrom (base ++ stk ++ [s]) rest from rfl, List.append_assoc]
          exact hs
      | curDir =>
          rcases ih stk (by simpa [entryDepthOk] using h) with ⟨suffix, hs⟩
          exact ⟨suffix, hs⟩
      | parentDir =>
          cases stk with
          | nil => simp [entryDepthOk] at h
          | cons s0 stkrest =>
              have h2 : entryDepthOk (s0 :: stkrest).dropLast.length rest = true := by
                rw [List.length_dropLast]
                simpa [entryDepthOk] using h
              rcases ih (s0 :: stkrest).dropLast h2 with ⟨suffix, hs⟩
              refine ⟨suffix, ?_⟩
              rw [show resolveFrom (base ++ (s0 :: stkrest)) (PathComponent.parentDir :: rest)
                  = resolveFrom ((base ++ (s0 :: stkrest)).dropLast) rest from rfl]
              rw [List.dropLast_append_of_ne_nil base (by simp)]
              exact hs

/-- C6: every zip entry that install_from_zip extracts resolves to a path
beneath the plugin directory; entries rejected by enclosed_name (absolute
names, or parent-dir components that could climb out) are skipped, so no
entry causes a write outside plugins_root/(id). -/
theorem zip_entry_stays_within (plugin_dir : List String) (e : ZipEntryName)
    (target : List String) (h : installEntryTarget plugin_dir e = some target) :
    ∃ suffix, target = plugin_dir ++ suffix := by
  unfold installEntryTarget enclosedName at h
  split_ifs at h with habs hdepth
  · simp at h
  · rcases resolveFrom_extends plugin_dir e.components [] hdepth with ⟨suffix, hs⟩
    have hs2 : resolveFrom plugin_dir e.components = plugin_dir ++ suffix := by
      simpa using hs
    have h3 : resolveFrom plugin_dir e.components = target := Option.some.inj h
    exact ⟨suffix, by rw [← h3]; exact hs2⟩
  · simp at h

/-- Witness for C6: a benign entry lands inside the plugin directory, and the
resulting path is an extension of it. -/
theorem zip_entry_stays_within_witness :
    installEntryTarget ["plugins", "pid"] ⟨false, [.normal "lib.so"]⟩
        = some ["plugins", "pid", "lib.so"]
      ∧ ∃ suffix, ["plugins", "pid", "lib.so"] = ["plugins", "pid"] ++ suffix :=
  ⟨rfl, zip_entry_stays_within ["plugins", "pid"] ⟨false, [.normal "lib.so"]⟩
      ["plugins", "pid", "lib.so"] rfl⟩

/-! ## C2 -/

/-- The dispatch loop depends on the plugins only through their responses to
the one dispatched event value. -/
theorem runPlugins_eq_foldResponses (ps : List LoadedPlugin) (event : PluginEvent) :
    ∀ current, runPlugins ps event current
      = foldResponses (ps.map (fun p => p.onEvent event)) current := by
  induction ps with
  | nil => intro current; cases current <;> rfl
  | cons p rest ih =>
      intro current
      cases hp : p.onEvent event <;>
        simp [runPlugins, foldResponses, hp, ih]

/-- A Cancel response halts the loop whatever comes after it. -/
theorem runPlugins_cancel (event : PluginEvent) (p : LoadedPlugin)
    (hp : p.onEvent event = .Cancel) :
    ∀ (front : List LoadedPlugin), (∀ q ∈ front, q.onEvent event ≠ .Cancel) →
      ∀ (tail : List LoadedPlugin) (current : Option RgbaImage),
        runPlugins (front ++ p :: tail) event current = .Cancel := by
  intro front
  induction front with
  | nil =>
      intro _ tail current
      simp [runPlugins, hp]
  | cons q front ih =>
      intro hq tail current
      have hqne := hq q (List.mem_cons_self q front)
      rw [List.cons_append]
      cases hr : q.onEvent event with
      | Cancel => exact absurd hr hqne
      | ModifiedImage img =>
          rw [show runPlugins (q :: (front ++ p :: tail)) event current
              = runPlugins (front ++ p :: tail) event (some img) from by
            simp [runPlugins, hr]]
          exact ih (fun r hrm => hq r (List.mem_cons_of_mem q hrm)) tail (some img)
      | Continue =>
          rw [show runPlugins (q :: (front ++ p :: tail)) event current
              = runPlugins (front ++ p :: tail) event current from by
            simp [runPlugins, hr]]
          exact ih (fun r hrm => hq r (List.mem_cons_of_mem q hrm)) tail current

/-- Peeling one response off lastModifiedImage. -/
theorem lastModifiedImage_cons (r : PluginResponse) (rest : List PluginResponse) :
    lastModifiedImage (r :: rest)
      = (lastModifiedImage rest).or
          (match r with
            | .ModifiedImage img => some img
            | _ => none) := by
  unfold lastModifiedImage
  rw [List.reverse_cons, List.findSome?_append]
  congr 1
  cases r <;> rfl

/-- With no Cancel in the list, the fold yields the last modified image if
one exists, else the accumulator. -/
theorem foldResponses_no_cancel :
    ∀ (rs : List PluginResponse), (∀ r ∈ rs, r ≠ .Cancel) →
      ∀ current, foldResponses rs current
        = match (lastModifiedImage rs).or current with
          | some img => .ModifiedImage img
          | none => .Continue := by
  intro rs
  induction rs with
  | nil => intro _ current; cases current <;> rfl
  | cons r rest ih =>
      intro h current
      have hr := h r (List.mem_cons_self r rest)
      have hrest := fun q hq => h q (List.mem_cons_of_mem r hq)
      rw [lastModifiedImage_cons]
      cases r with
      | Cancel => exact absurd rfl hr
      | Continue =>
          rw [show foldResponses (PluginResponse.Continue :: rest) current
              = foldResponses rest current from rfl]
          rw [ih hrest current]
          rw [show (match PluginResponse.Continue with
              | PluginResponse.ModifiedImage img => some img
              | _ => none) = (none : Option RgbaImage) from rfl, Option.or_none]
      | ModifiedImage img =>
          rw [show foldResponses (PluginResponse.ModifiedImage img :: rest) current
              = foldResponses rest (some img) from rfl]
          rw [ih hrest (some img)]
          rw [show (match PluginResponse.ModifiedImage img with
              | PluginResponse.ModifiedImage img => some img
              | _ => none) = some img from rfl]
          rw [Option.or_assoc, Option.or_some]

/-- Dispatch reduces to the loop when enabled with nothing pending. -/
theorem dispatch_fst (loader : LoadOracle) (m : PluginManager) (event : PluginEvent)
    (h1 : m.enabled = true) (h2 : m.discovered = []) :
    (PluginManager.dispatch loader m event).1 = runPlugins m.plugins event none := by
  unfold PluginManager.dispatch PluginManager.load_pending
  rw [h1, h2]
  cases hl : m.lazy_loading <;> simp

/-- C2: when the manager is enabled (and nothing is pending), dispatch feeds
every loaded plugin the same unmodified event value in load order (the result
is a function of the response list alone); a Cancel halts the chain with
result Cancel no matter what plugins follow; with no Cancel the result is the
last ModifiedImage if any plugin produced one, else Continue. -/
theorem manager_dispatch_chain (loader : LoadOracle) (m : PluginManager)
    (event : PluginEvent) (h1 : m.enabled = true) (h2 : m.discovered = []) :
    ((PluginManager.dispatch loader m event).1
        = foldResponses (m.plugins.map (fun p => p.onEvent event)) none)
    ∧ (∀ (front : List LoadedPlugin) (p : LoadedPlugin) (replaced : List LoadedPlugin),
        p.onEvent event = .Cancel →
        (∀ q ∈ front, q.onEvent event ≠ .Cancel) →
        (PluginManager.dispatch loader
            { m with plugins := front ++ p :: replaced } event).1
          = PluginResponse.Cancel)
    ∧ ((∀ p ∈ m.plugins, p.onEvent event ≠ .Cancel) →
        (PluginManager.dispatch loader m event).1
          = match lastModifiedImage (m.plugins.map (fun p => p.onEvent event)) with
            | some img => PluginResponse.ModifiedImage img
            | none => PluginResponse.Continue) := by
  refine ⟨?_, ?_, ?_⟩
  · rw [dispatch_fst loader m event h1 h2]
    exact runPlugins_eq_foldResponses m.plugins event none
  · intro front p replaced hp hfront
    rw [dispatch_fst loader { m with plugins := front ++ p :: replaced } event h1 h2]
    exact runPlugins_cancel event p hp front hfront replaced none
  · intro hnc
    rw [dispatch_fst loader m event h1 h2,
      runPlugins_eq_foldResponses m.plugins event none]
    rw [foldResponses_no_cancel (m.plugins.map (fun p => p.onEvent event))
      (by
        intro r hrm
        rcases List.mem_map.mp hrm with ⟨p, hpm, hpe⟩
        rw [← hpe]
        exact hnc p hpm) none]
    rw [Option.or_none]

/-- Witness for C2: a two-plugin manager where the second cancels; dispatch
returns Cancel, and the full chain characterization applies. -/
theorem manager_dispatch_chain_witness :
    (PluginManager.dispatch (fun _ => .error "e")
        ⟨[⟨"quiet", fun _ => PluginResponse.Continue⟩,
          ⟨"veto", fun _ => PluginResponse.Cancel⟩], [], true, true⟩
        (.PreCapture .FullScreen)).1
      = PluginResponse.Cancel :=
  (manager_dispatch_chain (fun _ => .error "e")
      ⟨[⟨"quiet", fun _ => PluginResponse.Continue⟩,
        ⟨"veto", fun _ => PluginResponse.Cancel⟩], [], true, true⟩
      (.PreCapture .FullScreen) rfl rfl).2.1
    [⟨"quiet", fun _ => PluginResponse.Continue⟩]
    ⟨"veto", fun _ => PluginResponse.Cancel⟩ [] rfl
    (by
      intro q hq
      rw [List.mem_singleton.mp hq]
      exact fun habs => PluginResponse.noConfusion habs)

/-! ## C3 -/

/-- A loader oracle that produces a plugin with id dup for directory dirA. -/
def dupLoader : LoadOracle := fun dir =>
  if dir = "dirA" then .ok ⟨"dup", fun _ => .Continue⟩ else .error "no manifest"

/-- A manager whose discovered (pending) set already holds the id dup. -/
def dupManager : PluginManager :=
  { plugins := [], discovered := [⟨"dup", "dirB"⟩], enabled := true,
    lazy_loading := true }

/-- C3 counterexample: with id dup pending in the discovered set, a
load_from_directory call for another directory that yields the same id dup
succeeds (and silently replaces the pending entry) instead of failing with a
duplicate-id error: the duplicate check of load_from_directory consults only
the loaded set, not the union of loaded and discovered. -/
theorem manager_duplicate_load_counterexample :
    dupManager.discovered.map DiscoveredPlugin.id = ["dup"]
    ∧ (PluginManager.load_from_directory dupLoader dupManager "dirA").toOption.map
        (fun m2 => (m2.plugins.map LoadedPlugin.id,
          m2.discovered.map DiscoveredPlugin.id))
      = some (["dup"], []) :=
  ⟨rfl, rfl⟩

/-- C3 amended: a discover attempt fails with the duplicate-id error when the
id already exists in either the loaded or the discovered set; a load attempt
fails when the id exists in the loaded set; a load whose id matches only a
pending discovered plugin succeeds, replacing the pending entry (lazy
promotion); a failing attempt returns the error without producing a new
manager state, and a successful load preserves id uniqueness across the union
of the two sets. -/
theorem manager_duplicate_id_amended (check : DiscoverOracle) (loader : LoadOracle)
    (m : PluginManager) (dir : String) :
    (∀ plugin_id, check dir = .ok plugin_id →
      (m.plugins.any (fun p => p.id == plugin_id)
          || m.discovered.any (fun p => p.id == plugin_id)) = true →
      PluginManager.discover_from_directory check m dir
        = .error ("Plugin with id '" ++ plugin_id ++ "' is already loaded"))
    ∧ (∀ loaded, loader dir = .ok loaded →
        m.plugins.any (fun p => p.id == loaded.id) = true →
        PluginManager.load_from_directory loader m dir
          = .error ("Plugin with id '" ++ loaded.id ++ "' is already loaded"))
    ∧ (∀ loaded, loader dir = .ok loaded →
        m.plugins.any (fun p => p.id == loaded.id) = false →
        PluginManager.load_from_directory loader m dir
          = .ok { m with
              discovered := m.discovered.filter
                (fun pending => pending.id != loaded.id),
              plugins := m.plugins ++ [loaded] })
    ∧ (∀ loaded m2, loader dir = .ok loaded →
        m.plugins.any (fun p => p.id == loaded.id) = false →
        PluginManager.load_from_directory loader m dir = .ok m2 →
        (m.plugins.map LoadedPlugin.id
            ++ m.discovered.map DiscoveredPlugin.id).Nodup →
        (m2.plugins.map LoadedPlugin.id
            ++ m2.discovered.map DiscoveredPlugin.id).Nodup) := by
  have hload_ok : ∀ loaded, loader dir = .ok loaded →
      m.plugins.any (fun p => p.id == loaded.id) = false →
      PluginManager.load_from_directory loader m dir
        = .ok { m with
            discovered := m.discovered.filter
              (fun pending => pending.id != loaded.id),
            plugins := m.plugins ++ [loaded] } := by
    intro loaded hld hany
    unfold PluginManager.load_from_directory
    simp only [hld]
    rw [if_neg (by rw [hany]; exact Bool.false_ne_true)]
  refine ⟨?_, ?_, hload_ok, ?_⟩
  · intro plugin_id hcheck hdup
    unfold PluginManager.discover_from_directory
    simp only [hcheck]
    rw [if_pos hdup]
  · intro loaded hld hany
    unfold PluginManager.load_from_directory
    simp only [hld]
    rw [if_pos hany]
  · intro loaded m2 hld hany hok hnodup
    rw [hload_ok loaded hld hany] at hok
    have hm2 := Except.ok.inj hok
    subst hm2
    have hnotin : loaded.id ∉ m.plugins.map LoadedPlugin.id := by
      intro hmem
      rcases List.mem_map.mp hmem with ⟨p, hpm, hpe⟩
      have := List.any_eq_false.mp hany p hpm
      simp [hpe] at this
    rw [List.nodup_append] at hnodup
    obtain ⟨hmp, hmd, hdisj⟩ := hnodup
    have hfsub : (m.discovered.filter
        (fun pending => pending.id != loaded.id)).map DiscoveredPlugin.id
          ⊆ m.discovered.map DiscoveredPlugin.id := by
      intro a ha
      rcases List.mem_map.mp ha with ⟨p, hpm, hpe⟩
      exact List.mem_map.mpr ⟨p, List.mem_of_mem_filter hpm, hpe⟩
    have hfnodup : ((m.discovered.filter
        (fun pending => pending.id != loaded.id)).map DiscoveredPlugin.id).Nodup :=
      ((List.filter_sublist _).map DiscoveredPlugin.id).nodup hmd
    have hlid_not_f : loaded.id ∉ (m.discovered.filter
        (fun pending => pending.id != loaded.id)).map DiscoveredPlugin.id := by
      intro hmem
      rcases List.mem_map.mp hmem with ⟨p, hpm, hpe⟩
      have hprop := List.of_mem_filter hpm
      simp only [ne_eq, bne_iff_ne] at hprop
      exact hprop hpe
    rw [show ({ m with
        discovered := m.discovered.filter (fun pending => pending.id != loaded.id),
        plugins := m.plugins ++ [loaded] } : PluginManager).plugins
      = m.plugins ++ [loaded] from rfl]
    rw [show ({ m with
        discovered := m.discovered.filter (fun pending => pending.id != loaded.id),
        plugins := m.plugins ++ [loaded] } : PluginManager).discovered
      = m.discovered.filter (fun pending => pending.id != loaded.id) from rfl]
    rw [List.map_append, List.append_assoc, List.nodup_append]
    refine ⟨hmp, ?_, ?_⟩
    · rw [show (([loaded] : List LoadedPlugin).map LoadedPlugin.id) = [loaded.id] from rfl,
        List.singleton_append, List.nodup_cons]
      exact ⟨hlid_not_f, hfnodup⟩
    · intro a hamp hamem
      rw [show (([loaded] : List LoadedPlugin).map LoadedPlugin.id) = [loaded.id] from rfl,
        List.singleton_append, List.mem_cons] at hamem
      rcases hamem with rfl | haf
      · exact hnotin hamp
      · exact hdisj hamp (hfsub haf)

/-- Witness for C3: the second discover attempt of an already-discovered id
fails with the duplicate-id error. -/
theorem manager_duplicate_id_amended_witness :
    PluginManager.discover_from_directory (fun _ => .ok "dup") dupManager "dirC"
      = .error "Plugin with id 'dup' is already loaded" :=
  (manager_duplicate_id_amended (fun _ => .ok "dup") dupLoader dupManager "dirC").1
    "dup" rfl (by decide)

/-! ## C8 -/

/-- A name of 65 copies of a two-byte character: 65 characters, 130 UTF-8
bytes. -/
def wideName : String := String.mk (List.replicate 65 'é')

/-- A manifest whose fields satisfy every constraint of the claim read as
character counts; only the name is non-ASCII. -/
def byteLenManifest : PluginManifest :=
  { plugin :=
      { id := "sample-id", name := wideName, version := "1.0.0",
        author := "someone", description := "d", license := none,
        website := none, repository := none },
    compatibility := { capscr := "*", platforms := ["linux"] },
    library := { windows := none, linux := some "libsample.so", macos := none } }

/-- C8 counterexample: byteLenManifest satisfies every constraint of the
claim with lengths read as character counts (the name is 65 characters,
within 128), yet validate rejects it with the name-length error, because
Rust String len() measures UTF-8 bytes and the name is 130 bytes. -/
theorem manifest_validate_bytelen_counterexample :
    (byteLenManifest.plugin.id ≠ ""
      ∧ byteLenManifest.plugin.id.data.all idCharOk = true
      ∧ byteLenManifest.plugin.id.length ≤ 64
      ∧ byteLenManifest.plugin.name ≠ ""
      ∧ byteLenManifest.plugin.name.length ≤ 128
      ∧ byteLenManifest.plugin.version ≠ ""
      ∧ byteLenManifest.plugin.author ≠ ""
      ∧ byteLenManifest.plugin.author.length ≤ 128
      ∧ byteLenManifest.plugin.description.length ≤ 512
      ∧ byteLenManifest.compatibility.platforms ≠ []
      ∧ ∀ p ∈ byteLenManifest.compatibility.platforms,
          p ∈ ["windows", "linux", "macos"])
    ∧ PluginManifest.validate (fun _ => true) (fun _ => true) byteLenManifest
        = .error "Plugin name cannot exceed 128 characters" :=
  ⟨by decide, by rfl⟩

/-- The platform error message always starts with the letter I. -/
theorem invalid_platform_head (p : String) :
    ("Invalid platform: " ++ p).data.head? = some 'I' := by
  rw [String.data_append]
  rfl

/-- C8 amended: validate succeeds exactly when every constraint holds with
string lengths measured in UTF-8 bytes (as Rust String len() does), and each
constraint violated in isolation produces its own distinct error message;
semver parsing is abstracted by the oracles pv (versions) and pr
(requirements). -/
theorem manifest_validate_characterization (pv pr : String → Bool)
    (m : PluginManifest) :
    (PluginManifest.validate pv pr m = .ok () ↔
      (m.plugin.id ≠ ""
        ∧ m.plugin.id.data.all idCharOk = true
        ∧ m.plugin.id.utf8ByteSize ≤ 64
        ∧ m.plugin.name ≠ ""
        ∧ m.plugin.name.utf8ByteSize ≤ 128
        ∧ m.plugin.version ≠ ""
        ∧ pv m.plugin.version = true
        ∧ m.plugin.author ≠ ""
        ∧ m.plugin.author.utf8ByteSize ≤ 128
        ∧ m.plugin.description.utf8ByteSize ≤ 512
        ∧ pr m.compatibility.capscr = true
        ∧ m.compatibility.platforms ≠ []
        ∧ m.compatibility.platforms.all
            (fun platform => ["windows", "linux", "macos"].contains platform) = true))
    ∧ (m.plugin.id = "" →
        PluginManifest.validate pv pr m = .error "Plugin ID cannot be empty")
    ∧ (m.plugin.id ≠ "" →
        m.plugin.id.data.all idCharOk = false →
        PluginManifest.validate pv pr m
          = .error "Plugin ID must be lowercase alphanumeric with hyphens only")
    ∧ (m.plugin.id ≠ "" →
        m.plugin.id.data.all idCharOk = true →
        m.plugin.id.utf8ByteSize > 64 →
        PluginManifest.validate pv pr m
          = .error "Plugin ID cannot exceed 64 characters")
    ∧ (m.plugin.id ≠ "" →
        m.plugin.id.data.all idCharOk = true →
        m.plugin.id.utf8ByteSize ≤ 64 →
        m.plugin.name = "" →
        PluginManifest.validate pv pr m = .error "Plugin name cannot be empty")
    ∧ (m.plugin.id ≠ "" →
        m.plugin.id.data.all idCharOk = true →
        m.plugin.id.utf8ByteSize ≤ 64 →
        m.plugin.name ≠ "" →
        m.plugin.name.utf8ByteSize > 128 →
        PluginManifest.validate pv pr m
          = .error "Plugin name cannot exceed 128 characters")
    ∧ (m.plugin.id ≠ "" →
        m.plugin.id.data.all idCharOk = true →
        m.plugin.id.utf8ByteSize ≤ 64 →
        m.plugin.name ≠ "" →
        m.plugin.name.utf8ByteSize ≤ 128 →
        m.plugin.version = "" →
        PluginManifest.validate pv pr m = .error "Plugin version cannot be empty")
    ∧ (m.plugin.id ≠ "" →
        m.plugin.id.data.all idCharOk = true →
        m.plugin.id.utf8ByteSize ≤ 64 →
        m.plugin.name ≠ "" →
        m.plugin.name.utf8ByteSize ≤ 128 →
        m.plugin.version ≠ "" →
        pv m.plugin.version = false →
        PluginManifest.validate pv pr m
          = .error "Plugin version must be valid semver (e.g., 1.0.0)")
    ∧ (m.plugin.id ≠ "" →
        m.plugin.id.data.all idCharOk = true →
        m.plugin.id.utf8ByteSize ≤ 64 →
        m.plugin.name ≠ "" →
        m.plugin.name.utf8ByteSize ≤ 128 →
        m.plugin.version ≠ "" →
        pv m.plugin.version = true →
        m.plugin.author = "" →
        PluginManifest.validate pv pr m = .error "Plugin author cannot be empty")
    ∧ (m.plugin.id ≠ "" →
        m.plugin.id.data.all idCharOk = true →
        m.plugin.id.utf8ByteSize ≤ 64 →
        m.plugin.name ≠ "" →
        m.plugin.name.utf8ByteSize ≤ 128 →
        m.plugin.version ≠ "" →
        pv m.plugin.version = true →
        m.plugin.author ≠ "" →
        m.plugin.author.utf8ByteSize > 128 →
        PluginManifest.validate pv pr m
          = .error "Plugin author cannot exceed 128 characters")
    ∧ (m.plugin.id ≠ "" →
        m.plugin.id.data.all idCharOk = true →
        m.plugin.id.utf8ByteSize ≤ 64 →
        m.plugin.name ≠ "" →
        m.plugin.name.utf8ByteSize ≤ 128 →
        m.plugin.version ≠ "" →
        pv m.plugin.version = true →
        m.plugin.author ≠ "" →
        m.plugin.author.utf8ByteSize ≤ 128 →
        m.plugin.description.utf8ByteSize > 512 →
        PluginManifest.validate pv pr m
          = .error "Plugin description cannot exceed 512 characters")
    ∧ (m.plugin.id ≠ "" →
        m.plugin.id.data.all idCharOk = true →
        m.plugin.id.utf8ByteSize ≤ 64 →
        m.plugin.name ≠ "" →
        m.plugin.name.utf8ByteSize ≤ 128 →
        m.plugin.version ≠ "" →
        pv m.plugin.version = true →
        m.plugin.author ≠ "" →
        m.plugin.author.utf8ByteSize ≤ 128 →
        m.plugin.description.utf8ByteSize ≤ 512 →
        pr m.compatibility.capscr = false →
        PluginManifest.validate pv pr m
          = .error "Compatibility version must be valid semver requirement")
    ∧ (m.plugin.id ≠ "" →
        m.plugin.id.data.all idCharOk = true →
        m.plugin.id.utf8ByteSize ≤ 64 →
        m.plugin.name ≠ "" →
        m.plugin.name.utf8ByteSize ≤ 128 →
        m.plugin.version ≠ "" →
        pv m.plugin.version = true →
        m.plugin.author ≠ "" →
        m.plugin.author.utf8ByteSize ≤ 128 →
        m.plugin.description.utf8ByteSize ≤ 512 →
        pr m.compatibility.capscr = true →
        m.compatibility.platforms = [] →
        PluginManifest.validate pv pr m
          = .error "At least one platform must be specified")
    ∧ (∀ platform,
        m.plugin.id ≠ "" →
        m.plugin.id.data.all idCharOk = true →
        m.plugin.id.utf8ByteSize ≤ 64 →
        m.plugin.name ≠ "" →
        m.plugin.name.utf8ByteSize ≤ 128 →
        m.plugin.version ≠ "" →
        pv m.plugin.version = true →
        m.plugin.author ≠ "" →
        m.plugin.author.utf8ByteSize ≤ 128 →
        m.plugin.description.utf8ByteSize ≤ 512 →
        pr m.compatibility.capscr = true →
        m.compatibility.platforms ≠ [] →
        m.compatibility.platforms.find?
            (fun q => ! (["windows", "linux", "macos"].contains q)) = some platform →
        PluginManifest.validate pv pr m
          = .error ("Invalid platform: " ++ platform))
    ∧ ([("Plugin ID cannot be empty" : String),
        "Plugin ID must be lowercase alphanumeric with hyphens only",
        "Plugin ID cannot exceed 64 characters",
        "Plugin name cannot be empty",
        "Plugin name cannot exceed 128 characters",
        "Plugin version cannot be empty",
        "Plugin version must be valid semver (e.g., 1.0.0)",
        "Plugin author cannot be empty",
        "Plugin author cannot exceed 128 characters",
        "Plugin description cannot exceed 512 characters",
        "Compatibility version must be valid semver requirement",
        "At least one platform must be specified"]).Nodup
    ∧ (∀ platform : String,
        ("Invalid platform: " ++ platform)
          ∉ [("Plugin ID cannot be empty" : String),
            "Plugin ID must be lowercase alphanumeric with hyphens only",
            "Plugin ID cannot exceed 64 characters",
            "Plugin name cannot be empty",
            "Plugin name cannot exceed 128 characters",
            "Plugin version cannot be empty",
            "Plugin version must be valid semver (e.g., 1.0.0)",
            "Plugin author cannot be empty",
            "Plugin author cannot exceed 128 characters",
            "Plugin description cannot exceed 512 characters",
            "Compatibility version must be valid semver requirement",
            "At least one platform must be specified"]) := by
  refine ⟨?_, ?_, ?_, ?_, ?_, ?_, ?_, ?_, ?_, ?_, ?_, ?_, ?_, ?_, by decide, ?_⟩
  · unfold PluginManifest.validate
    by_cases h1 : m.plugin.id = ""
    · rw [if_pos h1]
      exact iff_of_false (fun habs => Except.noConfusion habs) (fun hr => hr.1 h1)
    rw [if_neg h1]
    by_cases h2 : (!m.plugin.id.data.all idCharOk) = true
    · rw [if_pos h2]
      exact iff_of_false (fun habs => Except.noConfusion habs)
        (fun hr => by rw [hr.2.1] at h2; exact Bool.noConfusion h2)
    rw [if_neg h2]
    by_cases h3 : m.plugin.id.utf8ByteSize > 64
    · rw [if_pos h3]
      exact iff_of_false (fun habs => Except.noConfusion habs)
        (fun hr => by have := hr.2.2.1; omega)
    rw [if_neg h3]
    by_cases h4 : m.plugin.name = ""
    · rw [if_pos h4]
      exact iff_of_false (fun habs => Except.noConfusion habs)
        (fun hr => hr.2.2.2.1 h4)
    rw [if_neg h4]
    by_cases h5 : m.plugin.name.utf8ByteSize > 128
    · rw [if_pos h5]
      exact iff_of_false (fun habs => Except.noConfusion habs)
        (fun hr => by have := hr.2.2.2.2.1; omega)
    rw [if_neg h5]
    by_cases h6 : m.plugin.version = ""
    · rw [if_pos h6]
      exact iff_of_false (fun habs => Except.noConfusion habs)
        (fun hr => hr.2.2.2.2.2.1 h6)
    rw [if_neg h6]
    by_cases h7 : (!pv m.plugin.version) = true
    · rw [if_pos h7]
      exact iff_of_false (fun habs => Except.noConfusion habs)
        (fun hr => by rw [hr.2.2.2.2.2.2.1] at h7; exact Bool.noConfusion h7)
    rw [if_neg h7]
    by_cases h8 : m.plugin.author = ""
    · rw [if_pos h8]
      exact iff_of_false (fun habs => Except.noConfusion habs)
        (fun hr => hr.2.2.2.2.2.2.2.1 h8)
    rw [if_neg h8]
    by_cases h9 : m.plugin.author.utf8ByteSize > 128
    · rw [if_pos h9]
      exact iff_of_false (fun habs => Except.noConfusion habs)
        (fun hr => by have := hr.2.2.2.2.2.2.2.2.1; omega)
    rw [if_neg h9]
    by_cases h10 : m.plugin.description.utf8ByteSize > 512
    · rw [if_pos h10]
      exact iff_of_false (fun habs => Except.noConfusion habs)
        (fun hr => by have := hr.2.2.2.2.2.2.2.2.2.1; omega)
    rw [if_neg h10]
    by_cases h11 : (!pr m.compatibility.capscr) = true
    · rw [if_pos h11]
      exact iff_of_false (fun habs => Except.noConfusion habs)
        (fun hr => by
          rw [hr.2.2.2.2.2.2.2.2.2.2.1] at h11
          exact Bool.noConfusion h11)
    rw [if_neg h11]
    by_cases h12 : m.compatibility.platforms = []
    · rw [if_pos h12]
      exact iff_of_false (fun habs => Except.noConfusion habs)
        (fun hr => hr.2.2.2.2.2.2.2.2.2.2.2.1 h12)
    rw [if_neg h12]
    cases hfind : m.compatibility.platforms.find?
        (fun platform => ! (["windows", "linux", "macos"].contains platform)) with
    | some platform =>
        simp only [hfind]
        refine iff_of_false (fun habs => Except.noConfusion habs) (fun hr => ?_)
        have c13 := hr.2.2.2.2.2.2.2.2.2.2.2.2
        have hmem := List.mem_of_find?_eq_some hfind
        have hprop := List.find?_some hfind
        have hall := List.all_eq_true.mp c13 platform hmem
        rw [hall] at hprop
        exact Bool.noConfusion hprop
    | none =>
        simp only [hfind]
        refine iff_of_true trivial ⟨h1, ?_, by omega, h4, by omega, h6, ?_, h8,
          by omega, by omega, ?_, h12, ?_⟩
        · revert h2
          cases m.plugin.id.data.all idCharOk <;> simp
        · revert h7
          cases pv m.plugin.version <;> simp
        · revert h11
          cases pr m.compatibility.capscr <;> simp
        · refine List.all_eq_true.mpr (fun q hq => ?_)
          have hnone := List.find?_eq_none.mp hfind q hq
          revert hnone
          cases (["windows", "linux", "macos"].contains q) <;> simp
  · intro v1
    unfold PluginManifest.validate
    rw [if_pos v1]
  · intro c1 v2
    unfold PluginManifest.validate
    rw [if_neg c1, if_pos (by simp [v2])]
  · intro c1 c2 v3
    unfold PluginManifest.validate
    rw [if_neg c1, if_neg (by simp [c2]), if_pos v3]
  · intro c1 c2 c3 v4
    unfold PluginManifest.validate
    rw [if_neg c1, if_neg (by simp [c2]), if_neg (by omega), if_pos v4]
  · intro c1 c2 c3 c4 v5
    unfold PluginManifest.validate
    rw [if_neg c1, if_neg (by simp [c2]), if_neg (by omega), if_neg c4,
      if_pos v5]
  · intro c1 c2 c3 c4 c5 v6
    unfold PluginManifest.validate
    rw [if_neg c1, if_neg (by simp [c2]), if_neg (by omega), if_neg c4,
      if_neg (by omega), if_pos v6]
  · intro c1 c2 c3 c4 c5 c6 v7
    unfold PluginManifest.validate
    rw [if_neg c1, if_neg (by simp [c2]), if_neg (by omega), if_neg c4,
      if_neg (by omega), if_neg c6, if_pos (by simp [v7])]
  · intro c1 c2 c3 c4 c5 c6 c7 v8
    unfold PluginManifest.validate
    rw [if_neg c1, if_neg (by simp [c2]), if_neg (by omega), if_neg c4,
      if_neg (by omega), if_neg c6, if_neg (by simp [c7]), if_pos v8]
  · intro c1 c2 c3 c4 c5 c6 c7 c8 v9
    unfold PluginManifest.validate
    rw [if_neg c1, if_neg (by simp [c2]), if_neg (by omega), if_neg c4,
      if_neg (by omega), if_neg c6, if_neg (by simp [c7]), if_neg c8,
      if_pos v9]
  · intro c1 c2 c3 c4 c5 c6 c7 c8 c9 v10
    unfold PluginManifest.validate
    rw [if_neg c1, if_neg (by simp [c2]), if_neg (by omega), if_neg c4,
      if_neg (by omega), if_neg c6, if_neg (by simp [c7]), if_neg c8,
      if_neg (by omega), if_pos v10]
  · intro c1 c2 c3 c4 c5 c6 c7 c8 c9 c10 v11
    unfold PluginManifest.validate
    rw [if_neg c1, if_neg (by simp [c2]), if_neg (by omega), if_neg c4,
      if_neg (by omega), if_neg c6, if_neg (by simp [c7]), if_neg c8,
      if_neg (by omega), if_neg (by omega), if_pos (by simp [v11])]
  · intro c1 c2 c3 c4 c5 c6 c7 c8 c9 c10 c11 v12
    unfold PluginManifest.validate
    rw [if_neg c1, if_neg (by simp [c2]), if_neg (by omega), if_neg c4,
      if_neg (by omega), if_neg c6, if_neg (by simp [c7]), if_neg c8,
      if_neg (by omega), if_neg (by omega), if_neg (by simp [c11]),
      if_pos v12]
  · intro platform c1 c2 c3 c4 c5 c6 c7 c8 c9 c10 c11 c12 hfind
    unfold PluginManifest.validate
    rw [if_neg c1, if_neg (by simp [c2]), if_neg (by omega), if_neg c4,
      if_neg (by omega), if_neg c6, if_neg (by simp [c7]), if_neg c8,
      if_neg (by omega), if_neg (by omega), if_neg (by simp [c11]),
      if_neg c12]
    simp only [hfind]
  · intro platform hmem
    simp only [List.mem_cons, List.not_mem_nil, or_false] at hmem
    rcases hmem with h | h | h | h | h | h | h | h | h | h | h | h <;>
      · have hh := congrArg (fun s => s.data.head?) h
        rw [show (fun s => s.data.head?) ("Invalid platform: " ++ platform)
            = ("Invalid platform: " ++ platform).data.head? from rfl,
          invalid_platform_head] at hh
        exact absurd hh (by decide)

/-- A manifest satisfying every constraint. -/
def goodManifest : PluginManifest :=
  { plugin :=
      { id := "good-plugin", name := "Good Plugin", version := "1.2.3",
        author := "someone", description := "fine", license := none,
        website := none, repository := none },
    compatibility := { capscr := ">=0.1.0", platforms := ["windows", "linux"] },
    library :=
      { windows := some "good.dll", linux := some "libgood.so",
        macos := none } }

/-- Witness for C8: the characterization applied at concrete manifests, in
both directions. -/
theorem manifest_validate_characterization_witness :
    PluginManifest.validate (fun _ => true) (fun _ => true) goodManifest = .ok ()
    ∧ PluginManifest.validate (fun _ => true) (fun _ => true)
        { goodManifest with plugin := { goodManifest.plugin with id := "" } }
      = .error "Plugin ID cannot be empty" :=
  ⟨(manifest_validate_characterization (fun _ => true) (fun _ => true)
      goodManifest).1.mpr (by decide),
    (manifest_validate_characterization (fun _ => true) (fun _ => true)
      { goodManifest with plugin := { goodManifest.plugin with id := "" } }).2.1
      rfl⟩

end Capscr
